import Mathlib

/-!
Verification development for the aggregation/ranking/deduplication engine of the
movie-api-go repository (service layer `services/omdb.go`, with the data model of
`models/models.go` and the HTTP layer of `handlers/handlers.go` as context).

The service layer is embedded shallowly:

* Go strings stay `String`; the few `strings` package functions the code uses
  (`ToLower`, `Contains`, `Split(s, ", ")`, `EqualFold`) are given executable
  models on the underlying character list.  `ToLower`/`EqualFold` are modelled
  with `Char.toLower` (ASCII case mapping; the full Unicode tables of the Go
  runtime are out of scope, and no proof below depends on the case mapping of
  any particular character).
* `strconv.ParseFloat` is modelled on decimal syntax (optional sign, integer
  and fractional digits, optional decimal exponent), returning the parsed
  value exactly as a scaled integer `(n, k)` denoting `n / 10^k`; `ratQ`
  injects this into `ℚ`.  Hexadecimal floats, "Inf"/"NaN" forms and
  digit-group underscores are not modelled. All order-theoretic proofs are
  parametric in the parser; concrete inputs below use plain digit strings on
  which the model and `strconv.ParseFloat` agree. `ParseFloat`'s behaviour of
  returning value `0` together with an error on unparseable input is modelled
  by `Option` plus `getD (0, 0)` at the use sites that ignore the error.
* `sort.Slice(movies, less)` with `less i j = rating i > rating j` is an
  unstable sort in Go, so the order of rating ties is implementation-defined;
  it is modelled deterministically as `List.insertionSort` with the reflexive
  descending relation `ratingGE`, a sort with respect to the same comparator.
* The upstream OMDb provider (HTTP transport plus JSON decoding) is an
  `Upstream` value of two oracles: the free-text search request issued by
  `searchMovies`/`searchMoviesForRecommendation` and the by-title lookup
  issued by `GetMovieByTitle`/`makeRequest`.  `Except.error` is a
  transport/read/parse failure, `Except.ok` a decoded payload; the provider's
  own negative result is the `response = "False"` flag inside an `ok` payload,
  exactly as in the Go code.
-/

namespace MovieAPI

/-! ### Models of the Go `strings` functions used by `services/omdb.go` -/

/-- Model of Go `strings.ToLower` (ASCII case mapping, applied character-wise). -/
def strToLower (s : String) : String := ⟨s.data.map Char.toLower⟩

/-- Helper for `strContains`: does `sub` occur as a contiguous run in `s`? -/
def hasInfix (sub : List Char) : List Char → Bool
  | [] => sub.isEmpty
  | c :: rest => sub.isPrefixOf (c :: rest) || hasInfix sub rest

/-- Model of Go `strings.Contains s sub`. -/
def strContains (s sub : String) : Bool := hasInfix sub.data s.data

/-- Helper for `splitCommaSpace`: left-to-right scan splitting on the
two-character separator `", "`, the only separator `services/omdb.go` uses. -/
def splitCommaSpaceAux (acc : List Char) : List Char → List (List Char)
  | [] => [acc]
  | ',' :: ' ' :: rest => acc :: splitCommaSpaceAux [] rest
  | c :: rest => splitCommaSpaceAux (acc ++ [c]) rest

/-- Model of Go `strings.Split(s, ", ")` as used on the comma-separated
`Genre`, `Director` and `Actors` fields (`strings.Split` scans left to right
for non-overlapping occurrences of the separator; on `""` it yields `[""]`). -/
def splitCommaSpace (s : String) : List String :=
  (splitCommaSpaceAux [] s.data).map fun l => ⟨l⟩

/-- Model of Go `strings.EqualFold` (case-insensitive equality via the same
character-wise lowering as `strToLower`). -/
def eqFold (a b : String) : Bool := strToLower a = strToLower b

/-! ### Model of `strconv.ParseFloat` on decimal syntax -/

/-- Scaled-integer representation of a parsed decimal: `(n, k)` denotes the
exact rational `n / 10^k`. -/
abbrev ScaledDec := Int × Nat

/-- Strip one optional leading sign, returning whether it was `'-'`. -/
def stripSign : List Char → Bool × List Char
  | '+' :: cs => (false, cs)
  | '-' :: cs => (true, cs)
  | cs => (false, cs)

/-- Numeric value of a run of decimal digit characters. -/
def digitsToNat (cs : List Char) : Nat :=
  cs.foldl (fun a c => a * 10 + (c.toNat - 48)) 0

/-- Parse the exponent suffix of a decimal float literal (after `e`/`E`):
an optional sign followed by at least one digit, consuming the whole rest. -/
def parseExpPart (r : List Char) : Option Int :=
  let (eneg, r') := stripSign r
  let ed := r'.takeWhile Char.isDigit
  if ed.isEmpty || !(r'.dropWhile Char.isDigit).isEmpty then none
  else some (if eneg then -(digitsToNat ed : Int) else (digitsToNat ed : Int))

/-- Model of `strconv.ParseFloat` restricted to decimal notation: optional
sign, digits with an optional fractional part (at least one digit overall),
optional `e`/`E` exponent.  Returns the denoted value exactly. -/
def parseRating (s : String) : Option ScaledDec :=
  let (neg, cs) := stripSign s.data
  let ip := cs.takeWhile Char.isDigit
  let r1 := cs.dropWhile Char.isDigit
  let (fp, r2) :=
    match r1 with
    | '.' :: r => (r.takeWhile Char.isDigit, r.dropWhile Char.isDigit)
    | r => (([] : List Char), r)
  if ip.isEmpty && fp.isEmpty then none
  else
    let expPart : Option Int :=
      match r2 with
      | [] => some 0
      | 'e' :: r => parseExpPart r
      | 'E' :: r => parseExpPart r
      | _ => none
    match expPart with
    | none => none
    | some e =>
      let mant : Int := (digitsToNat (ip ++ fp) : Int)
      let mant : Int := if neg then -mant else mant
      let d : Int := e - fp.length
      some (if 0 ≤ d then (mant * 10 ^ d.toNat, 0) else (mant, (-d).toNat))

/-- The exact rational value denoted by a `ScaledDec`. -/
def ratQ (x : ScaledDec) : ℚ := (x.1 : ℚ) / 10 ^ x.2

/-- Order on `ScaledDec` by denoted value, via cross multiplication. -/
def rdLE (x y : ScaledDec) : Prop := x.1 * 10 ^ y.2 ≤ y.1 * 10 ^ x.2

instance : DecidableRel rdLE := fun x y => inferInstanceAs (Decidable (_ ≤ _))

instance {e a : Type} [DecidableEq e] [DecidableEq a] : DecidableEq (Except e a) :=
  fun x y =>
  match x, y with
  | .error v, .error w =>
    if h : v = w then .isTrue (congrArg Except.error h)
    else .isFalse fun hh => h (by cases hh; rfl)
  | .ok v, .ok w =>
    if h : v = w then .isTrue (congrArg Except.ok h)
    else .isFalse fun hh => h (by cases hh; rfl)
  | .error _, .ok _ => .isFalse fun hh => by cases hh
  | .ok _, .error _ => .isFalse fun hh => by cases hh

/-! ### Data model (`models/models.go`)

Only the fields the service layer reads or writes are modelled; the remaining
fields of `OMDbResponse` and `SearchResult` (poster, votes, box office, …) are
carried opaquely by the Go code and never influence the aggregation engine. -/

/-- Go `models.MovieBrief`. -/
structure MovieBrief where
  title : String
  year : String
  imdbRating : String
  genre : String
  director : String
  plot : String
deriving DecidableEq, Repr

/-- Go `models.OMDbResponse` (the fields read by `services/omdb.go`). -/
structure OMDbResponse where
  title : String
  year : String
  genre : String
  director : String
  actors : String
  plot : String
  imdbRating : String
  response : String
deriving DecidableEq, Repr

/-- Go `models.SearchResult` (the field read by the service layer is `Title`). -/
structure SearchResult where
  title : String
  year : String
  imdbID : String
deriving DecidableEq, Repr

/-- Go `models.SearchResponse`. -/
structure SearchResponse where
  search : List SearchResult
  totalResults : String
  response : String
  error : String
deriving DecidableEq, Repr

/-- Go `models.MovieLevel`. -/
structure MovieLevel where
  level : Int
  description : String
  movies : List MovieBrief
deriving DecidableEq, Repr

/-- Go `models.RecommendationResponse`. -/
structure RecommendationResponse where
  favoriteMovie : MovieBrief
  recommendations : List MovieLevel
deriving DecidableEq, Repr

/-! ### The upstream provider as oracles -/

/-- The upstream OMDb provider: `searchRaw term` is the decoded result of the
HTTP GET with `?s=term&type=movie` issued by `searchMovies` and
`searchMoviesForRecommendation`; `lookup title` is the decoded result of the
GET with `?t=title&type=movie` issued by `makeRequest` on behalf of
`GetMovieByTitle`.  An `Except.error` is a transport/read/JSON-parse failure
(`makeRequest` wraps these in messages prefixed "failed to ..."); `Except.ok`
is a decoded payload, whose own `response` flag may still be `"False"`. -/
structure Upstream where
  searchRaw : String → Except String SearchResponse
  lookup : String → Except String OMDbResponse

/-- Go `OMDbService.GetMovieByTitle` (builds the `?t=` query and calls
`makeRequest`; the query construction and transport live in the oracle). -/
def GetMovieByTitle (u : Upstream) (title : String) : Except String OMDbResponse :=
  u.lookup title

/-- The `models.MovieBrief` literal built from a detail lookup, as written in
`searchMovies`, `searchMoviesForRecommendation` and `GetMovieRecommendations`. -/
def mkBrief (d : OMDbResponse) : MovieBrief :=
  { title := d.title, year := d.year, imdbRating := d.imdbRating,
    genre := d.genre, director := d.director, plot := d.plot }

/-! ### Rating comparison and the sort step -/

/-- The parsed rating of a rating string, with `ParseFloat`'s error value `0`
when parsing fails (Go ignores the error in the sort comparators:
`rating, _ := strconv.ParseFloat(...)`). -/
def ratingRep (r : String) : ScaledDec := (parseRating r).getD (0, 0)

/-- The parsed rating as a rational, `0` when parsing fails. -/
def ratingQ (r : String) : ℚ := ratQ (ratingRep r)

/-- Descending-order relation used by the `sort.Slice` calls: `a` may precede
`b` when `a`'s parsed rating is at least `b`'s.  The Go comparator
`less i j = rating i > rating j` sorts into exactly the orders that are
pairwise `ratingGE`. -/
def ratingGE (a b : MovieBrief) : Prop :=
  rdLE (ratingRep b.imdbRating) (ratingRep a.imdbRating)

instance : DecidableRel ratingGE := fun a b => inferInstanceAs (Decidable (rdLE _ _))

instance : IsTotal MovieBrief ratingGE :=
  ⟨fun a b => by unfold ratingGE rdLE; exact le_total _ _⟩

instance : IsTrans MovieBrief ratingGE :=
  ⟨fun a b c h1 h2 => by
    unfold ratingGE rdLE at *
    nlinarith [pow_pos (by norm_num : (0:Int) < 10) (ratingRep a.imdbRating).2,
      pow_pos (by norm_num : (0:Int) < 10) (ratingRep b.imdbRating).2,
      pow_pos (by norm_num : (0:Int) < 10) (ratingRep c.imdbRating).2]⟩

/-- Model of `sort.Slice(movies, less)` with the rating-descending comparator.
Go's `sort.Slice` is unstable, so tie order is implementation-defined; the
model fixes insertion sort, a correct sort for the same comparator. -/
def sortByRatingDesc (movies : List MovieBrief) : List MovieBrief :=
  movies.insertionSort ratingGE

/-- Go's validity check in both dedup helpers:
`rating, err := strconv.ParseFloat(m.ImdbRating, 64); err == nil && rating > 0`.
On the scaled representation `(n, k)`, `0 < n / 10^k` iff `0 < n`. -/
def validRating (m : MovieBrief) : Bool :=
  match parseRating m.imdbRating with
  | some x => decide (0 < x.1)
  | none => false

/-- The dedup key of `removeDuplicatesAndFilter` and `removeDuplicatesAndLimit`:
`strings.ToLower(movie.Title + movie.Year)`. -/
def canonKey (m : MovieBrief) : String := strToLower (m.title ++ m.year)

/-! ### The Dedup/Rank utility (`removeDuplicatesAndFilter`, `removeDuplicatesAndLimit`) -/

/-- The loop of `removeDuplicatesAndFilter`: `seen` is the key set, `acc` the
`unique` slice built so far. -/
def dedupFilterGo (targetGenre : String) (seen : List String) (acc : List MovieBrief) :
    List MovieBrief → List MovieBrief
  | [] => acc
  | movie :: rest =>
    if canonKey movie ∈ seen then dedupFilterGo targetGenre seen acc rest
    else if strContains (strToLower movie.genre) (strToLower targetGenre) = true then
      if validRating movie = true then
        dedupFilterGo targetGenre (canonKey movie :: seen) (acc ++ [movie]) rest
      else dedupFilterGo targetGenre seen acc rest
    else dedupFilterGo targetGenre seen acc rest

/-- Go `removeDuplicatesAndFilter(movies, targetGenre)`. -/
def removeDuplicatesAndFilter (movies : List MovieBrief) (targetGenre : String) :
    List MovieBrief :=
  dedupFilterGo targetGenre [] [] movies

/-- The loop of `removeDuplicatesAndLimit` (run after its sort): skip seen
keys, keep only valid ratings, and break as soon as `len(unique) >= limit`
right after an append.  `limit` is a Go `int`, hence `Int` here. -/
def dedupLimitGo (limit : Int) (seen : List String) (acc : List MovieBrief) :
    List MovieBrief → List MovieBrief
  | [] => acc
  | movie :: rest =>
    if canonKey movie ∈ seen then dedupLimitGo limit seen acc rest
    else if validRating movie = true then
      let unique := acc ++ [movie]
      if limit ≤ (unique.length : Int) then unique
      else dedupLimitGo limit (canonKey movie :: seen) unique rest
    else dedupLimitGo limit seen acc rest

/-- Go `removeDuplicatesAndLimit(movies, limit)`: sort the whole input by
rating descending first, then dedup/filter/truncate in one pass. -/
def removeDuplicatesAndLimit (movies : List MovieBrief) (limit : Int) :
    List MovieBrief :=
  dedupLimitGo limit [] [] (sortByRatingDesc movies)

/-! ### Candidate resolver (`searchMovies`, `searchMoviesForRecommendation`) -/

/-- Go `searchMovies(searchTerm, targetGenre)`: one raw search; provider-level
"no results" (`Response == "False"`) yields `ok []`; every hit is re-resolved
by title, individual failures and not-founds are skipped, and surviving
details are kept when their genre contains the target genre
case-insensitively. -/
def searchMovies (u : Upstream) (searchTerm targetGenre : String) :
    Except String (List MovieBrief) :=
  match u.searchRaw searchTerm with
  | .error e => .error e
  | .ok searchResp =>
    if searchResp.response = "False" then .ok []
    else .ok (searchResp.search.foldl (fun movies result =>
      match GetMovieByTitle u result.title with
      | .error _ => movies
      | .ok movieDetails =>
        if movieDetails.response = "False" then movies
        else if strContains (strToLower movieDetails.genre) (strToLower targetGenre) = true then
          movies ++ [mkBrief movieDetails]
        else movies) [])

/-- Go `searchMoviesForRecommendation(searchTerm, excludeTitle)`: like
`searchMovies` but excluding the seed title (case-insensitively) and with no
genre filter. -/
def searchMoviesForRecommendation (u : Upstream) (searchTerm excludeTitle : String) :
    Except String (List MovieBrief) :=
  match u.searchRaw searchTerm with
  | .error e => .error e
  | .ok searchResp =>
    if searchResp.response = "False" then .ok []
    else .ok (searchResp.search.foldl (fun movies result =>
      if eqFold result.title excludeTitle = true then movies
      else
        match GetMovieByTitle u result.title with
        | .error _ => movies
        | .ok movieDetails =>
          if movieDetails.response = "False" then movies
          else movies ++ [mkBrief movieDetails]) [])

/-! ### Genre ranking pipeline (`SearchMoviesByGenre`) -/

/-- The constant `currentYear := 2024` hardcoded in `SearchMoviesByGenre`. -/
def currentYear : Int := 2024

/-- The search-term list built by `SearchMoviesByGenre`: the bare genre,
"genre movie", "best genre", then `genre year` for `year` from `currentYear`
down to `currentYear - 10`. -/
def searchTermsList (genre : String) : List String :=
  [genre, genre ++ " movie", "best " ++ genre] ++
    ((List.range 11).map fun i => genre ++ " " ++ toString (currentYear - i))

/-- The fan-out loop of `SearchMoviesByGenre`, returning the accumulated
`allMovies`: a term's failure is skipped (`continue`); after a successful
term's results are appended the loop breaks once `len(allMovies) >= 50`. -/
def genreFanOutMovies (u : Upstream) (genre : String) :
    List String → List MovieBrief → List MovieBrief
  | [], allMovies => allMovies
  | term :: rest, allMovies =>
    match searchMovies u term genre with
    | .error _ => genreFanOutMovies u genre rest allMovies
    | .ok movies =>
      if 50 ≤ (allMovies ++ movies).length then allMovies ++ movies
      else genreFanOutMovies u genre rest (allMovies ++ movies)

/-- The sequence of search terms actually issued by the fan-out loop of
`SearchMoviesByGenre` (every loop iteration issues its term, including the
ones whose search fails). -/
def genreFanOutTrace (u : Upstream) (genre : String) :
    List String → List MovieBrief → List String
  | [], _ => []
  | term :: rest, allMovies =>
    match searchMovies u term genre with
    | .error _ => term :: genreFanOutTrace u genre rest allMovies
    | .ok movies =>
      if 50 ≤ (allMovies ++ movies).length then [term]
      else term :: genreFanOutTrace u genre rest (allMovies ++ movies)

/-- Spec-side description of the issuing discipline, for comparison with the
code's loop: issue the terms in order, tracking only the accumulated
candidate count, and stop issuing further terms once the count reaches 50
(a failed term contributes nothing and the iteration proceeds). -/
def specIssuedTerms (u : Upstream) (genre : String) (count : Nat) :
    List String → List String
  | [] => []
  | term :: rest =>
    match searchMovies u term genre with
    | .error _ => term :: specIssuedTerms u genre count rest
    | .ok movies =>
      if 50 ≤ count + movies.length then [term]
      else term :: specIssuedTerms u genre (count + movies.length) rest

/-- The list returned by Go `SearchMoviesByGenre`: fan out, dedup/filter by
genre, sort by rating descending, truncate to 15. -/
def searchMoviesByGenreList (u : Upstream) (genre : String) : List MovieBrief :=
  let allMovies := genreFanOutMovies u genre (searchTermsList genre) []
  let uniqueMovies := removeDuplicatesAndFilter allMovies genre
  let sorted := sortByRatingDesc uniqueMovies
  if 15 < sorted.length then sorted.take 15 else sorted

/-- Go `SearchMoviesByGenre(genre)`: the single return statement is
`return uniqueMovies, nil`, every per-term failure having been swallowed. -/
def SearchMoviesByGenre (u : Upstream) (genre : String) :
    Except String (List MovieBrief) :=
  .ok (searchMoviesByGenreList u genre)

/-! ### Recommendation pipeline (`GetMovieRecommendations`) -/

/-- Outcome classification of `GetMovieRecommendations`' error return: Go uses
`error` values, distinguished by the handler through the exact message
`"movie not found: " + favoriteTitle`; the messages `makeRequest` produces for
transport/read/parse failures all carry a "failed to ..." prefix, so the two
kinds never collide and are modelled as distinct constructors. -/
inductive RecErr where
  | transport (msg : String)
  | notFound (title : String)
deriving DecidableEq, Repr

/-- The level-1 loop of `GetMovieRecommendations`: for each attribute value a
recommendation search whose failure is skipped and whose results accumulate. -/
def recFanOut (u : Upstream) (excludeTitle : String) (values : List String) :
    List MovieBrief :=
  values.foldl (fun acc v =>
    match searchMoviesForRecommendation u v excludeTitle with
    | .error _ => acc
    | .ok movies => acc ++ movies) []

/-- The level-2/level-3 loops of `GetMovieRecommendations`: like `recFanOut`
but skipping the `"N/A"` sentinel and empty values
(`if director != "N/A" && director != ""`). -/
def recFanOutFiltered (u : Upstream) (excludeTitle : String) (values : List String) :
    List MovieBrief :=
  values.foldl (fun acc v =>
    if v = "N/A" ∨ v = "" then acc
    else
      match searchMoviesForRecommendation u v excludeTitle with
      | .error _ => acc
      | .ok movies => acc ++ movies) []

/-- The body of `GetMovieRecommendations` after a successful, found seed
lookup: starting from the empty `Recommendations` slice, three per-attribute
fan-outs (genres; directors without the `"N/A"`/empty sentinel; the first two
actors without the sentinel), each deduped and bounded to 20, each appended
as a tier only when non-empty. -/
def buildRecs (u : Upstream) (favoriteTitle : String) (favoriteMovie : OMDbResponse) :
    RecommendationResponse :=
  let recs0 : List MovieLevel := []
  let level1Movies :=
    removeDuplicatesAndLimit (recFanOut u favoriteTitle (splitCommaSpace favoriteMovie.genre)) 20
  let recs1 : List MovieLevel :=
    if 0 < level1Movies.length then
      recs0 ++ [{ level := 1, description := "Movies in the same genre",
                  movies := level1Movies }]
    else recs0
  let level2Movies :=
    removeDuplicatesAndLimit
      (recFanOutFiltered u favoriteTitle (splitCommaSpace favoriteMovie.director)) 20
  let recs2 : List MovieLevel :=
    if 0 < level2Movies.length then
      recs1 ++ [{ level := 2, description := "Movies by the same director",
                  movies := level2Movies }]
    else recs1
  let level3Movies :=
    removeDuplicatesAndLimit
      (recFanOutFiltered u favoriteTitle ((splitCommaSpace favoriteMovie.actors).take 2)) 20
  let recs3 : List MovieLevel :=
    if 0 < level3Movies.length then
      recs2 ++ [{ level := 3, description := "Movies with the same main actors",
                  movies := level3Movies }]
    else recs2
  { favoriteMovie := mkBrief favoriteMovie, recommendations := recs3 }

/-- Go `GetMovieRecommendations(favoriteTitle)`: resolve the seed; a transport
failure propagates; a provider-level `Response == "False"` becomes the
"movie not found" error before any tier is computed; otherwise the tiers are
built. -/
def GetMovieRecommendations (u : Upstream) (favoriteTitle : String) :
    Except RecErr RecommendationResponse :=
  match GetMovieByTitle u favoriteTitle with
  | .error e => .error (.transport e)
  | .ok favoriteMovie =>
    if favoriteMovie.response = "False" then .error (.notFound favoriteTitle)
    else .ok (buildRecs u favoriteTitle favoriteMovie)

/-! ### Comparison-traced variant of the sort step

`orderedInsertTr`/`insertionSortTr` mirror `sortByRatingDesc` and additionally
record every pair of elements on which the rating comparator is evaluated,
to settle what reaches the comparator. -/

/-- `List.orderedInsert` with the evaluated comparator pairs recorded. -/
def orderedInsertTr (a : MovieBrief) :
    List MovieBrief → List MovieBrief × List (MovieBrief × MovieBrief)
  | [] => ([a], [])
  | b :: l =>
    if ratingGE a b then (a :: b :: l, [(a, b)])
    else
      let r := orderedInsertTr a l
      (b :: r.1, (a, b) :: r.2)

/-- `List.insertionSort` with the evaluated comparator pairs recorded. -/
def insertionSortTr :
    List MovieBrief → List MovieBrief × List (MovieBrief × MovieBrief)
  | [] => ([], [])
  | a :: l =>
    let r := insertionSortTr l
    let r' := orderedInsertTr a r.1
    (r'.1, r.2 ++ r'.2)

/-! ### Concrete items used by closed counterexamples and witnesses -/

/-- A concrete candidate with a valid rating. -/
def mHeat : MovieBrief :=
  { title := "Heat", year := "1995", imdbRating := "8.3",
    genre := "Action, Crime, Drama", director := "Michael Mann", plot := "p" }

/-- A concrete candidate whose rating string is the provider's sentinel and
does not parse. -/
def mNA : MovieBrief :=
  { title := "Unknown", year := "2001", imdbRating := "N/A",
    genre := "Action", director := "X", plot := "q" }

/-- A concrete found seed whose director field is the `"N/A"` sentinel. -/
def respDirNA : OMDbResponse :=
  { title := "T", year := "2000", genre := "Action", director := "N/A",
    actors := "N/A", plot := "p", imdbRating := "7.0", response := "True" }

/-- A concrete seed-lookup payload with the provider's success flag false. -/
def respNotFound : OMDbResponse :=
  { title := "", year := "", genre := "", director := "",
    actors := "", plot := "", imdbRating := "", response := "False" }

/-- A concrete search payload with the provider's success flag false. -/
def srFalse : SearchResponse :=
  { search := [], totalResults := "0", response := "False", error := "Movie not found!" }

/-- A concrete upstream: every search fails at transport level, every lookup
finds `respDirNA`. -/
def uRecDown : Upstream :=
  { searchRaw := fun _ => .error "down", lookup := fun _ => .ok respDirNA }

/-- A concrete upstream: every lookup reports the provider-level "not found". -/
def uNotFound : Upstream :=
  { searchRaw := fun _ => .error "down", lookup := fun _ => .ok respNotFound }

/-- A concrete upstream: every search yields the provider-level "no results",
every lookup fails at transport level. -/
def uEmptySearch : Upstream :=
  { searchRaw := fun _ => .ok srFalse, lookup := fun _ => .error "down" }

/-! ## Bridge lemmas: scaled decimals against their rational values -/

/-- The cross-multiplication order on `ScaledDec` is the order of denoted
rational values. -/
theorem rdLE_iff (x y : ScaledDec) : rdLE x y ↔ ratQ x ≤ ratQ y := by
  unfold rdLE ratQ
  rw [div_le_div_iff (by positivity) (by positivity)]
  constructor
  · intro h; exact_mod_cast h
  · intro h; exact_mod_cast h

/-- A scaled decimal denotes a positive rational iff its numerator is positive. -/
theorem ratQ_pos (x : ScaledDec) : 0 < ratQ x ↔ 0 < x.1 := by
  unfold ratQ
  have h10 : (0:ℚ) < 10 ^ x.2 := by positivity
  rw [lt_div_iff h10]
  simp

/-- `validRating` is Go's `err == nil && rating > 0` check, read through the
exact rational value of the parse. -/
theorem validRating_iff (m : MovieBrief) :
    validRating m = true ↔ ∃ x, parseRating m.imdbRating = some x ∧ 0 < ratQ x := by
  unfold validRating
  cases h : parseRating m.imdbRating with
  | none => simp
  | some x => simp [ratQ_pos]

/-- `ratingGE` compares the parsed rational ratings (parse failures as `0`). -/
theorem ratingGE_iff (a b : MovieBrief) :
    ratingGE a b ↔ ratingQ b.imdbRating ≤ ratingQ a.imdbRating := by
  unfold ratingGE ratingQ
  exact rdLE_iff _ _

/-! ## The sort step -/

/-- The sort step produces a rating-descending list. -/
theorem sortByRatingDesc_sorted (l : List MovieBrief) :
    List.Sorted ratingGE (sortByRatingDesc l) :=
  List.sorted_insertionSort ratingGE l

/-- The sort step leaves an already rating-descending list unchanged. -/
theorem sortByRatingDesc_eq_of_sorted {l : List MovieBrief}
    (h : List.Sorted ratingGE l) : sortByRatingDesc l = l :=
  h.insertionSort_eq

/-! ## The loop of `removeDuplicatesAndLimit` -/

/-- The loop output extends `acc` by a sublist of its input list. -/
theorem dedupLimitGo_eq_append (limit : Int) (l : List MovieBrief) :
    ∀ (seen : List String) (acc : List MovieBrief),
      ∃ l', List.Sublist l' l ∧ dedupLimitGo limit seen acc l = acc ++ l' := by
  induction l with
  | nil =>
    intro seen acc
    exact ⟨[], List.nil_sublist _, by simp [dedupLimitGo]⟩
  | cons movie rest ih =>
    intro seen acc
    simp only [dedupLimitGo]
    by_cases hseen : canonKey movie ∈ seen
    · simp only [if_pos hseen]
      obtain ⟨l', hs, he⟩ := ih seen acc
      exact ⟨l', hs.cons _, he⟩
    · simp only [if_neg hseen]
      by_cases hv : validRating movie = true
      · simp only [if_pos hv]
        by_cases hb : limit ≤ ((acc ++ [movie]).length : Int)
        · simp only [if_pos hb]
          exact ⟨[movie], (List.nil_sublist rest).cons₂ movie, rfl⟩
        · simp only [if_neg hb]
          obtain ⟨l', hs, he⟩ := ih (canonKey movie :: seen) (acc ++ [movie])
          exact ⟨movie :: l', hs.cons₂ movie, by rw [he]; simp⟩
      · simp only [if_neg hv]
        obtain ⟨l', hs, he⟩ := ih seen acc
        exact ⟨l', hs.cons _, he⟩

/-- Every element the loop adds beyond `acc` passed the validity check. -/
theorem dedupLimitGo_mem_valid (limit : Int) (l : List MovieBrief) :
    ∀ (seen : List String) (acc : List MovieBrief) (m : MovieBrief),
      m ∈ dedupLimitGo limit seen acc l → m ∈ acc ∨ validRating m = true := by
  induction l with
  | nil =>
    intro seen acc m hm
    simp only [dedupLimitGo] at hm
    exact Or.inl hm
  | cons movie rest ih =>
    intro seen acc m hm
    simp only [dedupLimitGo] at hm
    by_cases hseen : canonKey movie ∈ seen
    · rw [if_pos hseen] at hm
      exact ih seen acc m hm
    · rw [if_neg hseen] at hm
      by_cases hv : validRating movie = true
      · rw [if_pos hv] at hm
        by_cases hb : limit ≤ ((acc ++ [movie]).length : Int)
        · rw [if_pos hb] at hm
          rcases List.mem_append.mp hm with h | h
          · exact Or.inl h
          · rcases List.mem_singleton.mp h with rfl
            exact Or.inr hv
        · rw [if_neg hb] at hm
          rcases ih _ _ m hm with h | h
          · rcases List.mem_append.mp h with h' | h'
            · exact Or.inl h'
            · rcases List.mem_singleton.mp h' with rfl
              exact Or.inr hv
          · exact Or.inr h
      · rw [if_neg hv] at hm
        exact ih seen acc m hm

/-- Dedup keys of the loop output are distinct, given that `acc`'s keys are
distinct and all recorded in `seen`. -/
theorem dedupLimitGo_keys_nodup (limit : Int) (l : List MovieBrief) :
    ∀ (seen : List String) (acc : List MovieBrief),
      (∀ m ∈ acc, canonKey m ∈ seen) → (acc.map canonKey).Nodup →
      ((dedupLimitGo limit seen acc l).map canonKey).Nodup := by
  induction l with
  | nil =>
    intro seen acc _ hnd
    simpa [dedupLimitGo] using hnd
  | cons movie rest ih =>
    intro seen acc hacc hnd
    simp only [dedupLimitGo]
    by_cases hseen : canonKey movie ∈ seen
    · rw [if_pos hseen]
      exact ih seen acc hacc hnd
    · rw [if_neg hseen]
      have hnotin : canonKey movie ∉ acc.map canonKey := by
        intro hmem
        obtain ⟨m, hm, he⟩ := List.mem_map.mp hmem
        exact hseen (he ▸ hacc m hm)
      have hnd' : ((acc ++ [movie]).map canonKey).Nodup := by
        simp only [List.map_append, List.map_cons, List.map_nil]
        rw [List.nodup_append]
        refine ⟨hnd, List.nodup_singleton _, ?_⟩
        intro k hk hk'
        rcases List.mem_singleton.mp hk' with rfl
        exact hnotin hk
      by_cases hv : validRating movie = true
      · rw [if_pos hv]
        by_cases hb : limit ≤ ((acc ++ [movie]).length : Int)
        · rw [if_pos hb]
          exact hnd'
        · rw [if_neg hb]
          refine ih (canonKey movie :: seen) (acc ++ [movie]) ?_ hnd'
          intro m hm
          rcases List.mem_append.mp hm with h | h
          · exact List.mem_cons_of_mem _ (hacc m h)
          · rcases List.mem_singleton.mp h with rfl
            exact List.mem_cons_self _ _
      · rw [if_neg hv]
        exact ih seen acc hacc hnd

/-- Length bound for the loop: starting strictly below the limit (or from an
empty `acc`), the output never exceeds `max limit 1` elements — the one-slot
overshoot is possible because the Go loop appends before the bound check. -/
theorem dedupLimitGo_length_le (limit : Int) (l : List MovieBrief) :
    ∀ (seen : List String) (acc : List MovieBrief),
      ((acc.length : Int) < limit ∨ acc = []) →
      ((dedupLimitGo limit seen acc l).length : Int) ≤ max limit 1 := by
  induction l with
  | nil =>
    intro seen acc h
    simp only [dedupLimitGo]
    rcases h with h | rfl
    · omega
    · simp
  | cons movie rest ih =>
    intro seen acc h
    simp only [dedupLimitGo]
    by_cases hseen : canonKey movie ∈ seen
    · rw [if_pos hseen]; exact ih seen acc h
    · rw [if_neg hseen]
      by_cases hv : validRating movie = true
      · rw [if_pos hv]
        by_cases hb : limit ≤ ((acc ++ [movie]).length : Int)
        · rw [if_pos hb]
          have : (acc ++ [movie]).length = acc.length + 1 := by simp
          rcases h with h | rfl
          · rw [this]; push_cast; omega
          · simp
        · rw [if_neg hb]
          refine ih (canonKey movie :: seen) (acc ++ [movie]) (Or.inl ?_)
          omega
      · rw [if_neg hv]; exact ih seen acc h

/-- When every input element is valid, keys are fresh and mutually distinct,
and the whole input fits (or the loop starts empty with at most one element),
the loop appends the entire input. -/
theorem dedupLimitGo_all_fresh (limit : Int) (l : List MovieBrief) :
    ∀ (seen : List String) (acc : List MovieBrief),
      (∀ m ∈ l, validRating m = true) → (l.map canonKey).Nodup →
      (∀ m ∈ l, canonKey m ∉ seen) →
      (((acc.length : Int) + l.length ≤ limit) ∨ (acc.length + l.length ≤ 1)) →
      dedupLimitGo limit seen acc l = acc ++ l := by
  induction l with
  | nil =>
    intro seen acc _ _ _ _
    simp [dedupLimitGo]
  | cons movie rest ih =>
    intro seen acc hval hnd hfresh hfit
    simp only [dedupLimitGo]
    rw [if_neg (hfresh movie (List.mem_cons_self _ _)),
      if_pos (hval movie (List.mem_cons_self _ _))]
    by_cases hb : limit ≤ ((acc ++ [movie]).length : Int)
    · rw [if_pos hb]
      have hrest : rest = [] := by
        have hlen : (acc ++ [movie]).length = acc.length + 1 := by simp
        rcases hfit with h | h
        · simp only [List.length_cons] at h
          rw [hlen] at hb
          push_cast at h hb
          rcases rest with _ | ⟨r, rs⟩
          · rfl
          · exfalso
            simp only [List.length_cons] at h
            omega
        · simp only [List.length_cons] at h
          rcases rest with _ | ⟨r, rs⟩
          · rfl
          · exfalso
            simp only [List.length_cons] at h
            omega
      subst hrest
      simp
    · rw [if_neg hb]
      have hfit' : (((acc ++ [movie]).length : Int) + rest.length ≤ limit) ∨
          ((acc ++ [movie]).length + rest.length ≤ 1) := by
        have hlen : (acc ++ [movie]).length = acc.length + 1 := by simp
        rcases hfit with h | h
        · left
          simp only [List.length_cons] at h
          rw [hlen]
          push_cast at h ⊢
          omega
        · right
          simp only [List.length_cons] at h
          omega
      have := ih (canonKey movie :: seen) (acc ++ [movie])
        (fun m hm => hval m (List.mem_cons_of_mem _ hm))
        (by simpa using (List.nodup_cons.mp (by simpa using hnd)).2)
        (fun m hm => by
          intro hk
          rcases List.mem_cons.mp hk with hk' | hk'
          · have : canonKey movie ∉ (rest.map canonKey) :=
              (List.nodup_cons.mp (by simpa using hnd)).1
            exact this (hk' ▸ List.mem_map_of_mem canonKey hm)
          · exact hfresh m (List.mem_cons_of_mem _ hm) hk')
        hfit'
      rw [this]
      simp

/-! ## `removeDuplicatesAndLimit`: derived invariants -/

/-- The output of `removeDuplicatesAndLimit` is a sublist of its sort step. -/
theorem removeDuplicatesAndLimit_sublist (movies : List MovieBrief) (limit : Int) :
    List.Sublist (removeDuplicatesAndLimit movies limit) (sortByRatingDesc movies) := by
  obtain ⟨l', hs, he⟩ := dedupLimitGo_eq_append limit (sortByRatingDesc movies) [] []
  unfold removeDuplicatesAndLimit
  rw [he]
  simpa using hs

/-- The output of `removeDuplicatesAndLimit` is rating-descending. -/
theorem removeDuplicatesAndLimit_sorted (movies : List MovieBrief) (limit : Int) :
    List.Sorted ratingGE (removeDuplicatesAndLimit movies limit) :=
  (sortByRatingDesc_sorted movies).sublist (removeDuplicatesAndLimit_sublist movies limit)

/-- Every output element of `removeDuplicatesAndLimit` passed the validity
check. -/
theorem removeDuplicatesAndLimit_mem_valid (movies : List MovieBrief) (limit : Int) :
    ∀ m ∈ removeDuplicatesAndLimit movies limit, validRating m = true := by
  intro m hm
  unfold removeDuplicatesAndLimit at hm
  rcases dedupLimitGo_mem_valid limit (sortByRatingDesc movies) [] [] m hm with h | h
  · simp at h
  · exact h

/-- No two output elements of `removeDuplicatesAndLimit` share a dedup key. -/
theorem removeDuplicatesAndLimit_keys_nodup (movies : List MovieBrief) (limit : Int) :
    ((removeDuplicatesAndLimit movies limit).map canonKey).Nodup :=
  dedupLimitGo_keys_nodup limit (sortByRatingDesc movies) [] [] (by simp) (by simp)

/-- Output length bound for `removeDuplicatesAndLimit`. -/
theorem removeDuplicatesAndLimit_length_le (movies : List MovieBrief) (limit : Int) :
    ((removeDuplicatesAndLimit movies limit).length : Int) ≤ max limit 1 :=
  dedupLimitGo_length_le limit (sortByRatingDesc movies) [] [] (Or.inr rfl)

/-- `removeDuplicatesAndLimit` of the empty list. -/
theorem removeDuplicatesAndLimit_nil (limit : Int) :
    removeDuplicatesAndLimit [] limit = [] := rfl

/-! ## The loop of `removeDuplicatesAndFilter` -/

/-- Every element the filter loop adds beyond `acc` passed the validity check. -/
theorem dedupFilterGo_mem_valid (g : String) (l : List MovieBrief) :
    ∀ (seen : List String) (acc : List MovieBrief) (m : MovieBrief),
      m ∈ dedupFilterGo g seen acc l → m ∈ acc ∨ validRating m = true := by
  induction l with
  | nil =>
    intro seen acc m hm
    simp only [dedupFilterGo] at hm
    exact Or.inl hm
  | cons movie rest ih =>
    intro seen acc m hm
    simp only [dedupFilterGo] at hm
    by_cases hseen : canonKey movie ∈ seen
    · rw [if_pos hseen] at hm
      exact ih seen acc m hm
    · rw [if_neg hseen] at hm
      by_cases hg : strContains (strToLower movie.genre) (strToLower g) = true
      · rw [if_pos hg] at hm
        by_cases hv : validRating movie = true
        · rw [if_pos hv] at hm
          rcases ih _ _ m hm with h | h
          · rcases List.mem_append.mp h with h' | h'
            · exact Or.inl h'
            · rcases List.mem_singleton.mp h' with rfl
              exact Or.inr hv
          · exact Or.inr h
        · rw [if_neg hv] at hm
          exact ih seen acc m hm
      · rw [if_neg hg] at hm
        exact ih seen acc m hm

/-- Dedup keys of the filter-loop output are distinct, given that `acc`'s keys
are distinct and all recorded in `seen`. -/
theorem dedupFilterGo_keys_nodup (g : String) (l : List MovieBrief) :
    ∀ (seen : List String) (acc : List MovieBrief),
      (∀ m ∈ acc, canonKey m ∈ seen) → (acc.map canonKey).Nodup →
      ((dedupFilterGo g seen acc l).map canonKey).Nodup := by
  induction l with
  | nil =>
    intro seen acc _ hnd
    simpa [dedupFilterGo] using hnd
  | cons movie rest ih =>
    intro seen acc hacc hnd
    simp only [dedupFilterGo]
    by_cases hseen : canonKey movie ∈ seen
    · rw [if_pos hseen]
      exact ih seen acc hacc hnd
    · rw [if_neg hseen]
      have hnotin : canonKey movie ∉ acc.map canonKey := by
        intro hmem
        obtain ⟨m, hm, he⟩ := List.mem_map.mp hmem
        exact hseen (he ▸ hacc m hm)
      have hnd' : ((acc ++ [movie]).map canonKey).Nodup := by
        simp only [List.map_append, List.map_cons, List.map_nil]
        rw [List.nodup_append]
        refine ⟨hnd, List.nodup_singleton _, ?_⟩
        intro k hk hk'
        rcases List.mem_singleton.mp hk' with rfl
        exact hnotin hk
      by_cases hg : strContains (strToLower movie.genre) (strToLower g) = true
      · rw [if_pos hg]
        by_cases hv : validRating movie = true
        · rw [if_pos hv]
          refine ih (canonKey movie :: seen) (acc ++ [movie]) ?_ hnd'
          intro m hm
          rcases List.mem_append.mp hm with h | h
          · exact List.mem_cons_of_mem _ (hacc m h)
          · rcases List.mem_singleton.mp h with rfl
            exact List.mem_cons_self _ _
        · rw [if_neg hv]
          exact ih seen acc hacc hnd
      · rw [if_neg hg]
        exact ih seen acc hacc hnd

/-- No two output elements of `removeDuplicatesAndFilter` share a dedup key. -/
theorem removeDuplicatesAndFilter_keys_nodup (movies : List MovieBrief) (g : String) :
    ((removeDuplicatesAndFilter movies g).map canonKey).Nodup :=
  dedupFilterGo_keys_nodup g movies [] [] (by simp) (by simp)

/-- Every output element of `removeDuplicatesAndFilter` passed the validity
check. -/
theorem removeDuplicatesAndFilter_mem_valid (movies : List MovieBrief) (g : String) :
    ∀ m ∈ removeDuplicatesAndFilter movies g, validRating m = true := by
  intro m hm
  unfold removeDuplicatesAndFilter at hm
  rcases dedupFilterGo_mem_valid g movies [] [] m hm with h | h
  · simp at h
  · exact h

/-! ## The genre pipeline output -/

/-- The genre pipeline output is rating-descending. -/
theorem searchMoviesByGenreList_sorted (u : Upstream) (genre : String) :
    List.Sorted ratingGE (searchMoviesByGenreList u genre) := by
  simp only [searchMoviesByGenreList]
  split
  · exact (sortByRatingDesc_sorted _).sublist (List.take_sublist _ _)
  · exact sortByRatingDesc_sorted _

/-- Every element of the genre pipeline output passed the validity check. -/
theorem searchMoviesByGenreList_mem_valid (u : Upstream) (genre : String) :
    ∀ m ∈ searchMoviesByGenreList u genre, validRating m = true := by
  intro m hm
  simp only [searchMoviesByGenreList] at hm
  have hm' : m ∈ sortByRatingDesc (removeDuplicatesAndFilter
      (genreFanOutMovies u genre (searchTermsList genre) []) genre) := by
    split at hm
    · exact (List.take_sublist _ _).subset hm
    · exact hm
  rw [sortByRatingDesc, List.mem_insertionSort] at hm'
  exact removeDuplicatesAndFilter_mem_valid _ _ m hm'

/-! ## The fan-out loop of `SearchMoviesByGenre` -/

/-- The issued-terms trace of the fan-out loop agrees with the spec-side
count-based issuing discipline. -/
theorem genreFanOutTrace_eq_spec (u : Upstream) (genre : String) (ts : List String) :
    ∀ acc : List MovieBrief,
      genreFanOutTrace u genre ts acc = specIssuedTerms u genre acc.length ts := by
  induction ts with
  | nil =>
    intro acc
    simp [genreFanOutTrace, specIssuedTerms]
  | cons t rest ih =>
    intro acc
    simp only [genreFanOutTrace, specIssuedTerms]
    cases hs : searchMovies u t genre with
    | error e => simp [ih acc]
    | ok ms =>
      dsimp only
      rw [List.length_append]
      by_cases h50 : 50 ≤ acc.length + ms.length
      · rw [if_pos h50, if_pos h50]
      · rw [if_neg h50, if_neg h50, ih (acc ++ ms), List.length_append]

/-- The issued-terms trace is an initial segment of the term list. -/
theorem genreFanOutTrace_take (u : Upstream) (genre : String) (ts : List String) :
    ∀ acc : List MovieBrief, ∃ k, k ≤ ts.length ∧
      genreFanOutTrace u genre ts acc = ts.take k := by
  induction ts with
  | nil =>
    intro acc
    exact ⟨0, le_rfl, by simp [genreFanOutTrace]⟩
  | cons t rest ih =>
    intro acc
    simp only [genreFanOutTrace]
    cases hs : searchMovies u t genre with
    | error e =>
      obtain ⟨k, hk, he⟩ := ih acc
      exact ⟨k + 1, by simpa using hk, by simp [he]⟩
    | ok ms =>
      dsimp only
      by_cases h50 : 50 ≤ (acc ++ ms).length
      · rw [if_pos h50]
        exact ⟨1, by simp, by simp⟩
      · rw [if_neg h50]
        obtain ⟨k, hk, he⟩ := ih (acc ++ ms)
        exact ⟨k + 1, by simpa using hk, by simp [he]⟩

/-! ## The tier list built by `GetMovieRecommendations` -/

/-- Membership in a conditional tier append. -/
theorem mem_append_if {α : Type} {c : Prop} [Decidable c] {l : List α} {x y : α}
    (hx : x ∈ (if c then l ++ [y] else l)) : x ∈ l ∨ (c ∧ x = y) := by
  split at hx
  · rcases List.mem_append.mp hx with h | h
    · exact Or.inl h
    · exact Or.inr ⟨by assumption, List.mem_singleton.mp h⟩
  · exact Or.inl hx

/-- Every tier `GetMovieRecommendations` emits has a non-empty member list. -/
theorem buildRecs_tiers_nonempty (u : Upstream) (t : String) (resp : OMDbResponse) :
    ∀ lvl ∈ (buildRecs u t resp).recommendations, lvl.movies ≠ [] := by
  intro lvl hlvl
  simp only [buildRecs] at hlvl
  rcases mem_append_if hlvl with h | ⟨h3, rfl⟩
  · rcases mem_append_if h with h' | ⟨h2, rfl⟩
    · rcases mem_append_if h' with h'' | ⟨h1, rfl⟩
      · simp at h''
      · simpa using List.length_pos.mp h1
    · simpa using List.length_pos.mp h2
  · simpa using List.length_pos.mp h3

/-- The filtered fan-out over the lone `"N/A"` sentinel value is empty. -/
theorem recFanOutFiltered_na (u : Upstream) (t : String) :
    recFanOutFiltered u t ["N/A"] = [] := by
  simp [recFanOutFiltered]

/-- When the seed's director field is the `"N/A"` sentinel, no level-2 tier is
emitted. -/
theorem buildRecs_director_na (u : Upstream) (t : String) (resp : OMDbResponse)
    (hd : resp.director = "N/A") :
    ∀ lvl ∈ (buildRecs u t resp).recommendations, lvl.level ≠ 2 := by
  intro lvl hlvl
  have hsplit : splitCommaSpace "N/A" = ["N/A"] := by decide
  simp only [buildRecs, hd, hsplit, recFanOutFiltered_na,
    removeDuplicatesAndLimit_nil, List.length_nil, lt_self_iff_false,
    if_false, List.nil_append] at hlvl
  rcases mem_append_if hlvl with h | ⟨h3, rfl⟩
  · rcases mem_append_if h with h' | ⟨h1, rfl⟩
    · simp at h'
    · simp
  · simp

/-! ## Claim theorems -/

/-- Claim C1, counterexample: `removeDuplicatesAndLimit` with `limit = 0` on a
one-element valid input returns one element, exceeding the limit — the Go loop
appends before checking `len(unique) >= limit`, so a non-positive limit still
lets the first valid item through. -/
theorem claim_C1_cex :
    removeDuplicatesAndLimit [mHeat] 0 = [mHeat] ∧
    (0 : Int) < ((removeDuplicatesAndLimit [mHeat] 0).length : Int) := by
  decide

/-- Claim C1 (amended): for every input list and every limit (`limit` a Go
`int`, so any integer), `removeDuplicatesAndLimit` returns at most
`max limit 1` elements; in particular at most `limit` whenever `limit ≥ 1`,
the bound the callers (limit 20) rely on. -/
theorem claim_C1_bound (movies : List MovieBrief) (limit : Int) :
    ((removeDuplicatesAndLimit movies limit).length : Int) ≤ max limit 1 :=
  removeDuplicatesAndLimit_length_le movies limit

/-- Claim C2, counterexample: the rating sort of `removeDuplicatesAndLimit`
runs over the unfiltered input, so an item with unparseable rating (`mNA`,
parse result `none`) is still present at sorting time and is passed to the
rating comparator (the traced sort, which computes the same list, evaluates
the comparator on the pair `(mNA, mHeat)`); the invalid item is dropped only
afterwards, in the dedup pass. -/
theorem claim_C2_cex :
    parseRating mNA.imdbRating = none ∧
    mNA ∈ sortByRatingDesc [mNA, mHeat] ∧
    (insertionSortTr [mNA, mHeat]).1 = sortByRatingDesc [mNA, mHeat] ∧
    (mNA, mHeat) ∈ (insertionSortTr [mNA, mHeat]).2 ∧
    removeDuplicatesAndLimit [mNA, mHeat] 20 = [mHeat] := by
  decide

/-- Claim C2 (amended): in `removeDuplicatesAndLimit`, items with non-positive
or unparseable ratings are dropped after the descending sort, during the dedup
pass — the sort comparator sees every input item, parse failures comparing as
`0` — and consequently no such item ever appears in the output. -/
theorem claim_C2_filter_after_sort (movies : List MovieBrief) (limit : Int) :
    removeDuplicatesAndLimit movies limit =
      dedupLimitGo limit [] [] (sortByRatingDesc movies) ∧
    ∀ m ∈ removeDuplicatesAndLimit movies limit, validRating m = true :=
  ⟨rfl, removeDuplicatesAndLimit_mem_valid movies limit⟩

/-- Witness for claim C2's amended theorem at a concrete input. -/
theorem claim_C2_witness :
    mHeat ∈ removeDuplicatesAndLimit [mNA, mHeat] 20 ∧ validRating mHeat = true :=
  ⟨by decide, (claim_C2_filter_after_sort [mNA, mHeat] 20).2 mHeat (by decide)⟩

/-- Claim C3: rating monotonicity — in the output of the genre ranking
pipeline (`searchMoviesByGenreList`, the list `SearchMoviesByGenre` wraps in
`ok`) and of `removeDuplicatesAndLimit`, every element's parsed rating is at
least the next element's (stated pairwise, which for length ≥ 2 gives every
adjacent pair). -/
theorem claim_C3_monotone (u : Upstream) (genre : String)
    (movies : List MovieBrief) (limit : Int) :
    List.Pairwise (fun a b => ratingQ b.imdbRating ≤ ratingQ a.imdbRating)
      (searchMoviesByGenreList u genre) ∧
    List.Pairwise (fun a b => ratingQ b.imdbRating ≤ ratingQ a.imdbRating)
      (removeDuplicatesAndLimit movies limit) := by
  constructor
  · exact (searchMoviesByGenreList_sorted u genre).imp fun h => (ratingGE_iff _ _).mp h
  · exact (removeDuplicatesAndLimit_sorted movies limit).imp fun h => (ratingGE_iff _ _).mp h

/-- Claim C4: identity uniqueness — no two output elements of
`removeDuplicatesAndFilter` or of `removeDuplicatesAndLimit` share the
canonical key, and the canonical key `lowercase(title + year)` is
`lowercase(title) ++ lowercase(year)`. -/
theorem claim_C4_unique_keys (movies : List MovieBrief) (g : String) (limit : Int)
    (m : MovieBrief) :
    ((removeDuplicatesAndFilter movies g).map canonKey).Nodup ∧
    ((removeDuplicatesAndLimit movies limit).map canonKey).Nodup ∧
    canonKey m = strToLower m.title ++ strToLower m.year := by
  refine ⟨removeDuplicatesAndFilter_keys_nodup movies g,
    removeDuplicatesAndLimit_keys_nodup movies limit, ?_⟩
  cases m with
  | mk title year rating genre director plot =>
    cases title with
    | mk lt =>
      cases year with
      | mk ly =>
        show String.mk (((lt ++ ly).map Char.toLower)) =
          String.mk (lt.map Char.toLower ++ ly.map Char.toLower)
        exact congrArg String.mk (List.map_append _ _ _)

/-- Claim C5: `removeDuplicatesAndLimit` is idempotent — applying it again
with the same limit to its own output returns that output unchanged. -/
theorem claim_C5_idempotent (movies : List MovieBrief) (limit : Int) :
    removeDuplicatesAndLimit (removeDuplicatesAndLimit movies limit) limit =
      removeDuplicatesAndLimit movies limit := by
  set out := removeDuplicatesAndLimit movies limit with hout
  have hsorted : List.Sorted ratingGE out := removeDuplicatesAndLimit_sorted movies limit
  have hvalid : ∀ m ∈ out, validRating m = true :=
    removeDuplicatesAndLimit_mem_valid movies limit
  have hnd : (out.map canonKey).Nodup := removeDuplicatesAndLimit_keys_nodup movies limit
  have hlen : ((out.length : Int)) ≤ max limit 1 :=
    removeDuplicatesAndLimit_length_le movies limit
  show dedupLimitGo limit [] [] (sortByRatingDesc out) = out
  rw [sortByRatingDesc_eq_of_sorted hsorted]
  have hfit : (((List.length ([] : List MovieBrief) : Int)) + out.length ≤ limit) ∨
      (List.length ([] : List MovieBrief) + out.length ≤ 1) := by
    rcases le_total limit 1 with hl | hl
    · right
      rw [max_eq_right hl] at hlen
      simp only [List.length_nil, Nat.zero_add]
      omega
    · left
      rw [max_eq_left hl] at hlen
      simp only [List.length_nil, Int.ofNat_zero, zero_add]
      omega
  have h := dedupLimitGo_all_fresh limit out [] [] hvalid hnd (by simp) hfit
  simpa using h

/-- Claim C6: the genre fan-out issues the terms in exactly the built order —
bare genre, "genre movie", "best genre", then genre with each year 2024 down
to 2014 (the code's hardcoded `currentYear = 2024`, matching the spec's
example) — and the issued-term trace follows the spec's discipline of
stopping once the accumulated candidate count reaches 50, always forming an
initial segment of the term list. -/
theorem claim_C6_terms_and_stop (u : Upstream) (genre : String) :
    searchTermsList genre =
      [genre, genre ++ " movie", "best " ++ genre,
       genre ++ " " ++ "2024", genre ++ " " ++ "2023", genre ++ " " ++ "2022",
       genre ++ " " ++ "2021", genre ++ " " ++ "2020", genre ++ " " ++ "2019",
       genre ++ " " ++ "2018", genre ++ " " ++ "2017", genre ++ " " ++ "2016",
       genre ++ " " ++ "2015", genre ++ " " ++ "2014"] ∧
    genreFanOutTrace u genre (searchTermsList genre) [] =
      specIssuedTerms u genre 0 (searchTermsList genre) ∧
    ∃ k, k ≤ (searchTermsList genre).length ∧
      genreFanOutTrace u genre (searchTermsList genre) [] =
        (searchTermsList genre).take k := by
  refine ⟨rfl, ?_, genreFanOutTrace_take u genre (searchTermsList genre) []⟩
  simpa using genreFanOutTrace_eq_spec u genre (searchTermsList genre) []

/-- Claim C7: a tier whose member list is empty after dedup/bounding is
omitted from the recommendation output entirely; in particular, for a seed
whose director field is `"N/A"`, no level-2 tier appears. -/
theorem claim_C7_empty_tiers_omitted (u : Upstream) (title : String)
    (resp : OMDbResponse) (hl : u.lookup title = Except.ok resp)
    (hr : resp.response ≠ "False") :
    GetMovieRecommendations u title = Except.ok (buildRecs u title resp) ∧
    (∀ lvl ∈ (buildRecs u title resp).recommendations, lvl.movies ≠ []) ∧
    (resp.director = "N/A" →
      ∀ lvl ∈ (buildRecs u title resp).recommendations, lvl.level ≠ 2) := by
  refine ⟨?_, buildRecs_tiers_nonempty u title resp,
    fun hd => buildRecs_director_na u title resp hd⟩
  unfold GetMovieRecommendations GetMovieByTitle
  rw [hl]
  dsimp only
  rw [if_neg hr]

/-- Witness for claim C7's theorem at a concrete upstream whose seed has
director `"N/A"`. -/
theorem claim_C7_witness :
    uRecDown.lookup "T" = Except.ok respDirNA ∧
    respDirNA.response ≠ "False" ∧
    respDirNA.director = "N/A" ∧
    GetMovieRecommendations uRecDown "T" = Except.ok (buildRecs uRecDown "T" respDirNA) :=
  ⟨rfl, by decide, rfl,
    (claim_C7_empty_tiers_omitted uRecDown "T" respDirNA rfl (by decide)).1⟩

/-- Claim C8: when the seed lookup succeeds at transport level but carries the
provider's success-flag false, the pipeline returns the "seed not found"
signal — a `RecErr.notFound`, distinct from every transport error — and the
result does not depend on the search oracle at all: no tiers are computed. -/
theorem claim_C8_seed_not_found (u : Upstream) (title : String)
    (resp : OMDbResponse) (hl : u.lookup title = Except.ok resp)
    (hr : resp.response = "False") :
    GetMovieRecommendations u title = Except.error (RecErr.notFound title) ∧
    (∀ msg, RecErr.notFound title ≠ RecErr.transport msg) ∧
    (∀ u' : Upstream, u'.lookup = u.lookup →
      GetMovieRecommendations u' title = Except.error (RecErr.notFound title)) := by
  have hmain : ∀ u' : Upstream, u'.lookup = u.lookup →
      GetMovieRecommendations u' title = Except.error (RecErr.notFound title) := by
    intro u' he
    unfold GetMovieRecommendations GetMovieByTitle
    rw [he, hl]
    dsimp only
    rw [if_pos hr]
  exact ⟨hmain u rfl, ⟨fun msg h => RecErr.noConfusion h, hmain⟩⟩

/-- Witness for claim C8's theorem at a concrete upstream. -/
theorem claim_C8_witness :
    uNotFound.lookup "T" = Except.ok respNotFound ∧
    respNotFound.response = "False" ∧
    GetMovieRecommendations uNotFound "T" = Except.error (RecErr.notFound "T") :=
  ⟨rfl, rfl, (claim_C8_seed_not_found uNotFound "T" respNotFound rfl rfl).1⟩

/-- Claim C9: a provider-level "no results" (`Response == "False"`) makes both
resolvers return the empty list, not an error; whenever the raw search call
itself succeeds the resolvers return `ok` regardless of per-hit lookup
failures; and on an `ok []` term the genre fan-out proceeds to the next term,
issuing it. -/
theorem claim_C9_no_results_not_failure (u : Upstream) (term g ex : String)
    (sr : SearchResponse) (hs : u.searchRaw term = Except.ok sr) :
    (sr.response = "False" →
      searchMovies u term g = Except.ok [] ∧
      searchMoviesForRecommendation u term ex = Except.ok []) ∧
    (∃ l, searchMovies u term g = Except.ok l) ∧
    (∃ l, searchMoviesForRecommendation u term ex = Except.ok l) ∧
    (∀ (rest : List String) (acc : List MovieBrief),
      searchMovies u term g = Except.ok [] → ¬ 50 ≤ acc.length →
      genreFanOutMovies u g (term :: rest) acc = genreFanOutMovies u g rest acc ∧
      genreFanOutTrace u g (term :: rest) acc =
        term :: genreFanOutTrace u g rest acc) := by
  refine ⟨?_, ?_, ?_, ?_⟩
  · intro hf
    constructor
    · unfold searchMovies
      rw [hs]
      dsimp only
      rw [if_pos hf]
    · unfold searchMoviesForRecommendation
      rw [hs]
      dsimp only
      rw [if_pos hf]
  · unfold searchMovies
    rw [hs]
    dsimp only
    by_cases hf : sr.response = "False"
    · exact ⟨[], by rw [if_pos hf]⟩
    · exact ⟨_, by rw [if_neg hf]⟩
  · unfold searchMoviesForRecommendation
    rw [hs]
    dsimp only
    by_cases hf : sr.response = "False"
    · exact ⟨[], by rw [if_pos hf]⟩
    · exact ⟨_, by rw [if_neg hf]⟩
  · intro rest acc hok h50
    constructor
    · simp only [genreFanOutMovies, hok]
      rw [List.append_nil, if_neg h50]
    · simp only [genreFanOutTrace, hok]
      rw [List.append_nil, if_neg h50]

/-- Witness for claim C9's theorem at a concrete upstream whose search
reports "no results" and whose lookups all fail. -/
theorem claim_C9_witness :
    uEmptySearch.searchRaw "t" = Except.ok srFalse ∧
    srFalse.response = "False" ∧
    searchMovies uEmptySearch "t" "g" = Except.ok [] ∧
    searchMoviesForRecommendation uEmptySearch "t" "x" = Except.ok [] := by
  refine ⟨rfl, rfl, ?_, ?_⟩
  · exact ((claim_C9_no_results_not_failure uEmptySearch "t" "g" "x" srFalse rfl).1 rfl).1
  · exact ((claim_C9_no_results_not_failure uEmptySearch "t" "g" "x" srFalse rfl).1 rfl).2

/-- Claim C10: `SearchMoviesByGenre` never returns a non-nil error — its only
return path wraps the computed list in `ok`, every per-term failure having
been swallowed inside the fan-out loop, for every behaviour of the upstream
provider. -/
theorem claim_C10_never_errors (u : Upstream) (genre : String) :
    ∃ movies, SearchMoviesByGenre u genre = Except.ok movies ∧
      movies = searchMoviesByGenreList u genre :=
  ⟨searchMoviesByGenreList u genre, rfl, rfl⟩

end MovieAPI
